import Mathlib

/-!
Verification of `src/smsparser.py` (sms-utils): a shallow embedding of the
SMS definition-file node tree, its path resolver, trigger engine, serializer
and the auxiliary `ExtraNode`/`Meter`/`Label` classes, together with theorems
settling the specification claims.

Python strings are modelled as `String`, Python `None`-able references as
`Option`, and a Python `AttributeError` (or other raised exception) as
`Except.error ()`.
-/

namespace SMS

/-- Split a character list at every occurrence of `sep`, keeping empty
pieces: the semantics of Python `str.split(sep)` (and of `String.splitOn`),
e.g. `"" ↦ [""]`, `"/" ↦ ["", ""]`, `"a/b" ↦ ["a", "b"]`. -/
def splitCharList (sep : Char) : List Char → List (List Char)
  | [] => [[]]
  | c :: rest =>
    if c = sep then [] :: splitCharList sep rest
    else
      match splitCharList sep rest with
      | [] => [[c]]
      | piece :: pieces => (c :: piece) :: pieces

/-- Python `path.split('/')`. -/
def splitSlash (s : String) : List String :=
  (splitCharList '/' s.toList).map String.mk

/-- Helper for `splitWhitespace`: accumulate the current (reversed) word. -/
def splitWsAux : List Char → List Char → List String
  | cur, [] => if cur = [] then [] else [String.mk cur.reverse]
  | cur, c :: rest =>
    if c.isWhitespace then
      if cur = [] then splitWsAux [] rest
      else String.mk cur.reverse :: splitWsAux [] rest
    else splitWsAux (c :: cur) rest

/-- Python `str.split()` with no argument: split on runs of whitespace and
drop empty pieces. -/
def splitWhitespace (s : String) : List String :=
  splitWsAux [] s.toList

/-- ASCII lower-casing of one character (Python `str.lower()` on the ASCII
keywords `AND`/`OR` that the source applies it to). -/
def asciiLower (c : Char) : Char :=
  if 'A' ≤ c ∧ c ≤ 'Z' then Char.ofNat (c.toNat + 32) else c

/-- Python `str.lower()` (ASCII range). -/
def lowerStr (s : String) : String :=
  String.mk (s.toList.map asciiLower)

/-- Python `ch in s` membership test for a character in a string. -/
def strContains (s : String) (ch : Char) : Bool :=
  s.toList.any (fun c => c = ch)

/-- Tokens making up the expression string `new_exp` built by
`NodeWithTriggers._parse_trigger`.  Each constructor is one piece appended to
`new_exp` by the source: a run of parentheses (appended verbatim), a quoted
status literal `' "%s" ' % i`, a lowered boolean operator `' %s ' % i.lower()`,
the equality operator `' == '`, or the placeholder `' "%s" '` whose
corresponding node is appended to `nodes`. -/
inductive TTok where
  | parenRun (s : String)
  | litStr (s : String)
  | boolOp (s : String)
  | eqOp
  | placeholder
  deriving Repr, DecidableEq

/-- A Task instance: name, eagerly-stored `_path`, current `status`
(class default `'unknown'`), `variables`, the raw captured trigger text
`_trigger_exp` and the parsed `trigger` pair (expression pieces, operand
node references represented by their stored paths — the serializer reads
only `n.path` of them, `none` standing for a `None` reference).  Label/Meter
children are modelled separately via `ExtraNode`.  -/
structure TaskT where
  name : String
  path : String
  status : String := "unknown"
  vars : List (String × String) := []
  trigger_exp : String := ""
  trigger : List TTok × List (Option String) := ([], [])
  deriving Repr, DecidableEq

/-- A Family instance: name, stored `_path`, `status`, `variables`,
declared `limits` (name → capacity string), owned `tasks` and `families`
(declaration order), and the raw captured trigger text `_trigger_exp`. -/
inductive FamilyT where
  | mk (name : String) (path : String) (status : String)
       (vars : List (String × String))
       (limits : List (String × String))
       (trigger_exp : String)
       (tasks : List TaskT)
       (families : List FamilyT)
  deriving Repr

def FamilyT.name : FamilyT → String
  | .mk n _ _ _ _ _ _ _ => n

def FamilyT.path : FamilyT → String
  | .mk _ p _ _ _ _ _ _ => p

def FamilyT.status : FamilyT → String
  | .mk _ _ s _ _ _ _ _ => s

def FamilyT.vars : FamilyT → List (String × String)
  | .mk _ _ _ v _ _ _ _ => v

def FamilyT.limits : FamilyT → List (String × String)
  | .mk _ _ _ _ l _ _ _ => l

def FamilyT.trigger_exp : FamilyT → String
  | .mk _ _ _ _ _ t _ _ => t

def FamilyT.tasks : FamilyT → List TaskT
  | .mk _ _ _ _ _ _ ts _ => ts

def FamilyT.families : FamilyT → List FamilyT
  | .mk _ _ _ _ _ _ _ fs => fs

/-- A Suite instance: name, stored `_path` (set to `"/"` by `Suite.__init__`),
`status`, `variables` and top-level `families`. -/
structure SuiteT where
  name : String
  path : String := "/"
  status : String := "unknown"
  vars : List (String × String) := []
  families : List FamilyT
  deriving Repr

/-- The value carried by one Python node object (Suite, Family or Task). -/
inductive NodeV where
  | vSuite (s : SuiteT)
  | vFam (f : FamilyT)
  | vTask (t : TaskT)
  deriving Repr

/-- A node object together with its chain of `_parent` references
(innermost parent first).  This zipper is the embedding of the Python
object graph's parent pointers. -/
structure CNode where
  node : NodeV
  ancestors : List NodeV
  deriving Repr

/-- `SMSNode.parent` (the `_parent` reference). -/
def parentOf (c : CNode) : Option CNode :=
  match c.ancestors with
  | [] => none
  | p :: rest => some ⟨p, rest⟩

/-- Worker for `get_suite`, walking the ancestor chain. -/
def get_suite_go : NodeV → List NodeV → Option CNode
  | .vSuite s, anc => some ⟨.vSuite s, anc⟩
  | _, [] => none
  | _, p :: rest => get_suite_go p rest

/-- `SMSNode.get_suite` / `Suite.get_suite`: a Suite returns itself; any
other node recurses into its parent, yielding `none` when a non-Suite node
has no parent. -/
def get_suite (c : CNode) : Option CNode :=
  get_suite_go c.node c.ancestors

/-- `NodeV.status` — the `status` attribute read by trigger evaluation. -/
def NodeV.status : NodeV → String
  | .vSuite s => s.status
  | .vFam f => f.status
  | .vTask t => t.status

/-- `Task._node_from_path`: the task matches only the empty remaining path or
its own full stored path. -/
def task_node_from_path (anc : List NodeV) (t : TaskT) (path : String) :
    Option CNode :=
  if path = t.path ∨ path = "" then some ⟨.vTask t, anc⟩ else none

mutual

/-- `Family._node_from_path`: empty or `"."` path yields the family itself;
otherwise the first segment is matched by name against `self.tasks +
self.families` (a plain loop: the LAST matching sibling's recursive result
wins) and the joined remainder is resolved in the match. -/
def fam_node_from_path (anc : List NodeV) (f : FamilyT) (path : String) :
    Option CNode :=
  match f with
  | .mk n p st v l te ts fs =>
    if path = "" ∨ path = "." then some ⟨.vFam (.mk n p st v l te ts fs), anc⟩
    else
      let path_list := splitSlash path
      let seg := path_list.headD ""
      let rest := String.intercalate "/" path_list.tail
      let anc' := NodeV.vFam (.mk n p st v l te ts fs) :: anc
      let afterTasks := ts.foldl
        (fun acc t => if t.name = seg then task_node_from_path anc' t rest else acc)
        none
      fams_scan anc' seg rest afterTasks fs

/-- The loop of `Family._node_from_path`/`Suite._node_from_path` over a list
of child families: each name match overwrites the accumulator with the
recursive resolution result. -/
def fams_scan (anc : List NodeV) (seg rest : String) (acc : Option CNode) :
    List FamilyT → Option CNode
  | [] => acc
  | g :: gs =>
      fams_scan anc seg rest
        (if g.name = seg then fam_node_from_path anc g rest else acc) gs

end

/-- `Suite._node_from_path`: empty or `"."` yields the suite; otherwise the
first segment is matched against `self.families` only. -/
def suite_node_from_path (anc : List NodeV) (s : SuiteT) (path : String) :
    Option CNode :=
  if path = "" ∨ path = "." then some ⟨.vSuite s, anc⟩
  else
    let path_list := splitSlash path
    let seg := path_list.headD ""
    let rest := String.intercalate "/" path_list.tail
    fams_scan (NodeV.vSuite s :: anc) seg rest none s.families

/-- Dynamic dispatch of `_node_from_path` on the runtime class of the node. -/
def node_from_path (c : CNode) (path : String) : Option CNode :=
  match c with
  | ⟨.vSuite s, anc⟩ => suite_node_from_path anc s path
  | ⟨.vFam f, anc⟩ => fam_node_from_path anc f path
  | ⟨.vTask t, anc⟩ => task_node_from_path anc t path

/-- The token loop of `SMSNode.get_node`: a `'..'` token replaces the
resolution base by its parent (`AttributeError`, i.e. `Except.error`, when the
base is already `None`); every other token is collected in order into
`rel_path_list`. -/
def walkTokens : Option CNode → List String → Except Unit (Option CNode × List String)
  | base, [] => .ok (base, [])
  | base, tok :: rest =>
    if tok = ".." then
      match base with
      | none => .error ()
      | some b => walkTokens (parentOf b) rest
    else
      match walkTokens base rest with
      | .error e => .error e
      | .ok (b, acc) => .ok (b, tok :: acc)

/-- The relative branch of `SMSNode.get_node`: the base is the parent (or the
suite when there is no parent), `'..'` tokens move the base up, and the joined
remaining tokens are resolved via `_node_from_path` (yielding `none` when the
base has become `None`). -/
def get_node_rel (c : CNode) (cs : List Char) : Except Unit (Option CNode) :=
  let base0 : Option CNode :=
    match parentOf c with
    | some p => some p
    | none => get_suite c
  let path_list := splitSlash (String.mk cs)
  match walkTokens base0 path_list with
  | .error e => .error e
  | .ok (base, rel_list) =>
    let rel := String.intercalate "/" rel_list
    .ok (match base with
         | none => none
         | some b => node_from_path b rel)

/-- `SMSNode.get_node` on the path's character list: a leading `'/'` restarts
resolution at the suite (`AttributeError` when `get_suite()` is `None`), any
other shape is resolved relatively. -/
def get_node_go : List Char → CNode → Except Unit (Option CNode)
  | [], c => get_node_rel c []
  | ch :: rest, c =>
    if ch = '/' then
      match get_suite c with
      | none => .error ()
      | some s => get_node_go rest s
    else get_node_rel c (ch :: rest)

/-- `SMSNode.get_node`: resolve a path (absolute or relative) from this node.
`Except.error ()` models a raised `AttributeError`. -/
def get_node (c : CNode) (path : String) : Except Unit (Option CNode) :=
  get_node_go path.toList c

/-! ## Trigger engine (`NodeWithTriggers`) -/

/-- Character class of the second group of the pattern
`r'(\(*)([\w\d./=]*)(\)*)'`: word characters plus `.`, `/`, `=`. -/
def isTrigWordChar (c : Char) : Bool :=
  c.isAlphanum || c = '_' || c = '.' || c = '/' || c = '='

/-- `re.search` of `r'(\(*)([\w\d./=]*)(\)*)'` on one token.  The pattern can
match the empty string, so the leftmost match is always at position 0 and the
three groups are the maximal runs of `'('`, word characters, and `')'`
starting there. -/
def triggerTokGroups (tok : String) : String × String × String :=
  let cs := tok.toList
  let g1 := cs.takeWhile (fun c => c = '(')
  let rest1 := cs.dropWhile (fun c => c = '(')
  let g2 := rest1.takeWhile isTrigWordChar
  let rest2 := rest1.dropWhile isTrigWordChar
  let g3 := rest2.takeWhile (fun c => c = ')')
  (String.mk g1, String.mk g2, String.mk g3)

/-- One iteration of the inner loop of `NodeWithTriggers._parse_trigger` over
a regex group `i`: extend `new_exp` (and, for a path operand, the `nodes`
list with `self.get_node(i)`, whose `AttributeError` would propagate). -/
def trigGroupStep (c : CNode) (acc : List TTok × List (Option CNode))
    (i : String) : Except Unit (List TTok × List (Option CNode)) :=
  if i = "" then .ok acc
  else if strContains i '(' || strContains i ')' then
    .ok (acc.1 ++ [TTok.parenRun i], acc.2)
  else if i = "complete" ∨ i = "unknown" then
    .ok (acc.1 ++ [TTok.litStr i], acc.2)
  else if i = "AND" ∨ i = "OR" then
    .ok (acc.1 ++ [TTok.boolOp (lowerStr i)], acc.2)
  else if i = "==" then
    .ok (acc.1 ++ [TTok.eqOp], acc.2)
  else
    match get_node c i with
    | .error e => .error e
    | .ok n => .ok (acc.1 ++ [TTok.placeholder], acc.2 ++ [n])

/-- The token loop of `NodeWithTriggers._parse_trigger`: decompose each
whitespace-separated token into its three regex groups and classify each
group in order. -/
def trigTokLoop (c : CNode) :
    List String → List TTok × List (Option CNode) →
    Except Unit (List TTok × List (Option CNode))
  | [], acc => .ok acc
  | tok :: rest, acc =>
    match trigGroupStep c acc (triggerTokGroups tok).1 with
    | .error e => .error e
    | .ok a1 =>
      match trigGroupStep c a1 (triggerTokGroups tok).2.1 with
      | .error e => .error e
      | .ok a2 =>
        match trigGroupStep c a2 (triggerTokGroups tok).2.2 with
        | .error e => .error e
        | .ok a3 => trigTokLoop c rest a3

/-- `NodeWithTriggers._parse_trigger`: split `self._trigger_exp` on
whitespace and classify every token's regex groups, producing the
expression pieces (`new_exp`) and the list of resolved node operands
(`nodes`).  The result is the value stored in `self.trigger`. -/
def NodeWithTriggers._parse_trigger (c : CNode) (trigger_exp : String) :
    Except Unit (List TTok × List (Option CNode)) :=
  trigTokLoop c (splitWhitespace trigger_exp) ([], [])

/-! ### Evaluation of the generated expression string

`evalute_trigger` runs Python `eval` on `exp % tuple(n.status for n in
nodes)`.  The expression string is the concatenation of the `TTok` pieces,
so it is modelled as the corresponding token sequence; `eval` of the
resulting Python expression (string literals, `==`, `and`, `or`,
parentheses — including Python's compile-time concatenation of adjacent
string literals and truthiness-based `and`/`or`) is modelled by a small
recursive-descent interpreter.  Any Python exception (`AttributeError` on a
`None` operand, `SyntaxError`/`TypeError` from `eval`, arity errors of `%`)
is `Except.error ()`. -/

/-- A token of the substituted Python expression handed to `eval`. -/
inductive ETok where
  | str (s : String)
  | andT
  | orT
  | eqT
  | lp
  | rp
  deriving Repr, DecidableEq

/-- Substitute the node statuses for the `%s` placeholders (`exp % tuple`):
error when the number of placeholders and statuses differ. -/
def substTrig : List TTok → List String → Except Unit (List ETok)
  | [], [] => .ok []
  | [], _ :: _ => .error ()
  | t :: ts, sts =>
    match t, sts with
    | .placeholder, [] => .error ()
    | .placeholder, st :: sts' =>
      (substTrig ts sts').map (fun r => ETok.str st :: r)
    | .litStr s, _ => (substTrig ts sts).map (fun r => ETok.str s :: r)
    | .boolOp b, _ =>
      (substTrig ts sts).map
        (fun r => (if b = "and" then ETok.andT else ETok.orT) :: r)
    | .eqOp, _ => (substTrig ts sts).map (fun r => ETok.eqT :: r)
    | .parenRun s, _ =>
      (substTrig ts sts).map
        (fun r => (s.toList.map fun ch => if ch = '(' then ETok.lp else ETok.rp) ++ r)

/-- A Python value produced by evaluating a generated trigger expression. -/
inductive PyVal where
  | vStr (s : String)
  | vBool (b : Bool)
  deriving Repr, DecidableEq

/-- Python truthiness for the values that can occur. -/
def PyVal.truthy : PyVal → Bool
  | .vStr s => !(s = "")
  | .vBool b => b

/-- Python `==` on the values that can occur. -/
def PyVal.eqVal : PyVal → PyVal → Bool
  | .vStr a, .vStr b => a = b
  | .vBool a, .vBool b => a = b
  | _, _ => false

/-- Python `x and y` (value semantics of the short-circuit operator). -/
def pyAnd (a b : PyVal) : PyVal := if a.truthy then b else a

/-- Python `x or y` (value semantics of the short-circuit operator). -/
def pyOr (a b : PyVal) : PyVal := if a.truthy then a else b

/-- Python's chained comparison `v1 == v2 == ... == vn`: the conjunction of
the adjacent equalities. -/
def chainEq : List PyVal → Bool
  | a :: b :: rest => a.eqVal b && chainEq (b :: rest)
  | _ => true

mutual

/-- Parse one atom: a maximal run of adjacent string literals (which Python
concatenates at compile time) or a parenthesised expression.  An atom
immediately followed by `(` , or a parenthesised atom followed by a string
literal, is a `TypeError`/`SyntaxError` in Python, hence an error.  Every
recursive call consumes one unit of `fuel` (`pyEval` supplies enough for any
input). -/
def parseAtom : Nat → List ETok → Except Unit (PyVal × List ETok)
  | 0, _ => .error ()
  | _ + 1, [] => .error ()
  | fuel + 1, ETok.str s :: rest =>
    match rest with
    | ETok.str _ :: _ =>
      match parseAtom fuel rest with
      | .ok (PyVal.vStr s2, rest') => .ok (PyVal.vStr (s ++ s2), rest')
      | _ => .error ()
    | ETok.lp :: _ => .error ()
    | _ => .ok (PyVal.vStr s, rest)
  | fuel + 1, ETok.lp :: rest =>
    (match parseOrE fuel rest with
     | .ok (v, ETok.rp :: rest') =>
       match rest' with
       | ETok.str _ :: _ => .error ()
       | ETok.lp :: _ => .error ()
       | _ => .ok (v, rest')
     | _ => .error ())
  | _ + 1, _ => .error ()

/-- Parse the `(== atom)*` tail of a comparison, collecting the operands. -/
def parseCmpOps : Nat → List PyVal → List ETok → Except Unit (List PyVal × List ETok)
  | 0, _, _ => .error ()
  | fuel + 1, acc, ETok.eqT :: rest =>
    (match parseAtom fuel rest with
     | .error e => .error e
     | .ok (v, rest') => parseCmpOps fuel (acc ++ [v]) rest')
  | _ + 1, acc, toks => .ok (acc, toks)

/-- Parse a comparison `atom (== atom)*`: a lone atom is its own value, a
chain yields the boolean conjunction of adjacent equalities. -/
def parseCmp : Nat → List ETok → Except Unit (PyVal × List ETok)
  | 0, _ => .error ()
  | fuel + 1, toks =>
    match parseAtom fuel toks with
    | .error e => .error e
    | .ok (v, rest) =>
      match parseCmpOps fuel [v] rest with
      | .error e => .error e
      | .ok ([x], rest') => .ok (x, rest')
      | .ok (ops, rest') => .ok (PyVal.vBool (chainEq ops), rest')

/-- Parse `cmp (and cmp)*`. -/
def parseAndE : Nat → List ETok → Except Unit (PyVal × List ETok)
  | 0, _ => .error ()
  | fuel + 1, toks =>
    match parseCmp fuel toks with
    | .error e => .error e
    | .ok (v, rest) => parseAndRest fuel v rest

/-- Remaining `and cmp` steps, combined with Python `and` semantics. -/
def parseAndRest : Nat → PyVal → List ETok → Except Unit (PyVal × List ETok)
  | 0, _, _ => .error ()
  | fuel + 1, acc, ETok.andT :: rest =>
    (match parseCmp fuel rest with
     | .error e => .error e
     | .ok (v, rest') => parseAndRest fuel (pyAnd acc v) rest')
  | _ + 1, acc, toks => .ok (acc, toks)

/-- Parse `andExp (or andExp)*`. -/
def parseOrE : Nat → List ETok → Except Unit (PyVal × List ETok)
  | 0, _ => .error ()
  | fuel + 1, toks =>
    match parseAndE fuel toks with
    | .error e => .error e
    | .ok (v, rest) => parseOrRest fuel v rest

/-- Remaining `or andExp` steps, combined with Python `or` semantics. -/
def parseOrRest : Nat → PyVal → List ETok → Except Unit (PyVal × List ETok)
  | 0, _, _ => .error ()
  | fuel + 1, acc, ETok.orT :: rest =>
    (match parseAndE fuel rest with
     | .error e => .error e
     | .ok (v, rest') => parseOrRest fuel (pyOr acc v) rest')
  | _ + 1, acc, toks => .ok (acc, toks)

end

/-- Python `eval` of a substituted trigger expression: parse the whole token
list as one expression; leftover tokens or parse failures are errors.  The
fuel bound exceeds any possible recursion depth for the given tokens. -/
def pyEval (toks : List ETok) : Except Unit PyVal :=
  match parseOrE (8 * toks.length + 16) toks with
  | .ok (v, []) => .ok v
  | _ => .error ()

/-- `NodeWithTriggers.evalute_trigger` (sic): `True` for an empty expression;
otherwise read every operand node's current `status` (`AttributeError`, i.e.
error, if an operand is `None`), substitute them into the expression and
`eval` it. -/
def evalute_trigger (trig : List TTok × List (Option CNode)) :
    Except Unit PyVal :=
  let (exp, nodes) := trig
  if exp = [] then .ok (.vBool true)
  else
    match nodes.mapM (fun n => match n with
                               | none => Except.error ()
                               | some c => Except.ok c.node.status) with
    | .error e => .error e
    | .ok statuses =>
      match substTrig exp statuses with
      | .error e => .error e
      | .ok etoks => pyEval etoks

/-! ## Construction (`__init__` path computation) -/

/-- The path stored by the `SMSNode.parent` setter for current name `nm`:
no parent stores the bare name, a parent at `"/"` appends without a
separating slash, any other parent path gets `"/"` inserted. -/
def parentSetPath (parentPath : Option String) (nm : String) : String :=
  match parentPath with
  | none => nm
  | some pp => if pp = "/" then pp ++ nm else pp ++ "/" ++ nm

/-- The path stored by the `SMSNode.name` setter: drop the last segment of
the old path and append the new name. -/
def nameSetPath (old_path nm : String) : String :=
  String.intercalate "/" (splitSlash old_path).dropLast ++ "/" ++ nm

/-- The path a node ends up with after `SMSNode.__init__`: the parent is
assigned first (while `self.name` is still the class default `''`), then the
name setter recomputes the path. -/
def initPath (parentPath : Option String) (nm : String) : String :=
  nameSetPath (parentSetPath parentPath "") nm

/-- The parse record of a `task` block (name, variables, captured trigger
text). -/
structure RawTask where
  name : String
  vars : List (String × String) := []
  trigger_exp : String := ""
  deriving Repr

/-- The parse record of a `family` block. -/
inductive RawFam where
  | mk (name : String)
       (vars : List (String × String))
       (limits : List (String × String))
       (trigger_exp : String)
       (tasks : List RawTask)
       (families : List RawFam)
  deriving Repr

/-- `Task.__init__` from a parse object: parent assignment computes the
path; variables and the captured trigger text are taken from the record.
The parsed `trigger` is left at its default `('', [])` until the second
(`_parse_triggers`) pass. -/
def buildTask (parentPath : String) (r : RawTask) : TaskT :=
  { name := r.name
    path := initPath (some parentPath) r.name
    vars := r.vars
    trigger_exp := r.trigger_exp }

mutual

/-- `Family.__init__` from a parse object: parent assignment computes the
path, child families and tasks are built recursively with this family as
parent, `_parse_limits` stores the declared limits, and the captured trigger
text is kept for the second pass.  (`_parse_in_limits`, which also runs
here, is modelled by `Family._parse_in_limits` below because its result
refers back into the tree.) -/
def buildFamily (parentPath : String) : RawFam → FamilyT
  | .mk n v l te ts fs =>
    FamilyT.mk n (initPath (some parentPath) n) "unknown" v l te
      (ts.map (buildTask (initPath (some parentPath) n)))
      (buildFams (initPath (some parentPath) n) fs)

/-- The list comprehension building child families in declaration order. -/
def buildFams (parentPath : String) : List RawFam → List FamilyT
  | [] => []
  | g :: gs => buildFamily parentPath g :: buildFams parentPath gs

end

/-- `Suite.__init__`: the path is overwritten with `'/'` after the generic
init, and top-level families are built with the suite as parent. -/
def buildSuite (name : String) (vars : List (String × String))
    (fams : List RawFam) : SuiteT :=
  { name := name, path := "/", vars := vars, families := buildFams "/" fams }

/-- Python `dict.get(k, None)` over the insertion-ordered pairs of
`Family._parse_limits` (a later duplicate key overwrites an earlier one). -/
def dictGet (l : List (String × String)) (k : String) : Option String :=
  l.foldl (fun acc p => if p.1 = k then some p.2 else acc) none

/-- The loop of `Family._parse_in_limits` over the `inlimit` clauses. -/
def inLimitsLoop (c : CNode) :
    List (String × String) → List (Option CNode × Option String) →
    Except Unit (List (Option CNode × Option String))
  | [], acc => .ok acc
  | inlim :: rest, acc =>
    match get_node c inlim.1 with
    | .error e => .error e
    | .ok none => .error ()
    | .ok (some n) =>
      match n.node with
      | .vFam f => inLimitsLoop c rest (acc ++ [(some n, dictGet f.limits inlim.2)])
      | _ => .error ()

/-- `Family._parse_in_limits`: for each `inlimit` clause (target path, limit
name), resolve the target via `self.get_node` and read
`node.limits.get(name, None)`.  A `None` resolution result — or a resolved
node of a class without a `limits` attribute (Suite, Task) — raises
`AttributeError`, modelled as `Except.error`. -/
def Family._parse_in_limits (c : CNode) (inlimits : List (String × String)) :
    Except Unit (List (Option CNode × Option String)) :=
  inLimitsLoop c inlimits []

/-! ## Mutation: the `name` setter -/

/-- The `SMSNode.name` setter applied to a Family object: `_name` and
`_path` are reassigned; no other attribute — in particular no descendant —
is touched. -/
def FamilyT.setName (f : FamilyT) (nm : String) : FamilyT :=
  match f with
  | .mk _ p st v l te ts fs => .mk nm (nameSetPath p nm) st v l te ts fs

/-- The `SMSNode.name` setter applied to a Task object. -/
def TaskT.setName (t : TaskT) (nm : String) : TaskT :=
  { t with name := nm, path := nameSetPath t.path nm }

/-! ## Serializer (`cdp_definition`) -/

/-- Python `'\t' * n`. -/
def tabs (n : Nat) : String :=
  String.mk (List.replicate n '\t')

/-- `SMSNode._start_cdp_definition`: one `edit k "v"` line per variable.
(The source iterates a Python dict; this model uses insertion order.) -/
def SMSNode._start_cdp_definition (vars : List (String × String))
    (indent_order : Nat) : String :=
  vars.foldl
    (fun acc kv =>
      acc ++ tabs (indent_order + 1) ++ "edit " ++ kv.1 ++ " \"" ++ kv.2 ++ "\"\n")
    ""

/-- `SMSNode._end_cdp_definition`. -/
def SMSNode._end_cdp_definition (sms_type : String) (indent_order : Nat) : String :=
  tabs indent_order ++ "end" ++ sms_type ++ "\n"

/-- `Family._start_cdp_definition`: `limit` lines, then the inherited
variable lines. -/
def Family._start_cdp_definition (limits vars : List (String × String))
    (indent_order : Nat) : String :=
  limits.foldl
    (fun acc kv =>
      acc ++ tabs (indent_order + 1) ++ "limit " ++ kv.1 ++ " " ++ kv.2 ++ "\n")
    ""
  ++ SMSNode._start_cdp_definition vars indent_order

/-- `exp % tuple(...)` for the trigger pieces with the operand node paths
substituted for the placeholders (arity mismatch is an error). -/
def renderPieces : List TTok → List String → Except Unit String
  | [], [] => .ok ""
  | [], _ :: _ => .error ()
  | .placeholder :: _, [] => .error ()
  | .placeholder :: ts, p :: ps =>
    (renderPieces ts ps).map (fun r => " \"" ++ p ++ "\" " ++ r)
  | .litStr s :: ts, ps => (renderPieces ts ps).map (fun r => " \"" ++ s ++ "\" " ++ r)
  | .boolOp b :: ts, ps => (renderPieces ts ps).map (fun r => " " ++ b ++ " " ++ r)
  | .eqOp :: ts, ps => (renderPieces ts ps).map (fun r => " == " ++ r)
  | .parenRun s :: ts, ps => (renderPieces ts ps).map (fun r => s ++ r)

/-- `Task._specific_cdp_definition`: nothing for an empty trigger
expression, otherwise a `trigger` line with the operand node paths formatted
into the expression (`n.path` of a `None` operand raises, hence error). -/
def Task._specific_cdp_definition (t : TaskT) (indent_order : Nat) :
    Except Unit String :=
  let (exp, nodes) := t.trigger
  if exp = [] then .ok ""
  else
    match nodes.mapM id with
    | none => .error ()
    | some paths =>
      match renderPieces exp paths with
      | .error e => .error e
      | .ok trig => .ok (tabs indent_order ++ "trigger " ++ trig ++ "\n")

/-- `Task.cdp_definition` (the inherited `SMSNode.cdp_definition` with
`Task`'s `_specific_cdp_definition`). -/
def Task.cdp_definition (t : TaskT) (indent_order : Nat) : Except Unit String :=
  match Task._specific_cdp_definition t (indent_order + 1) with
  | .error e => .error e
  | .ok spec =>
    .ok (tabs indent_order ++ "task " ++ t.name ++ "\n"
         ++ SMSNode._start_cdp_definition t.vars indent_order
         ++ spec
         ++ SMSNode._end_cdp_definition "task" indent_order)

mutual

/-- `Family.cdp_definition`: header, limit/variable lines, then the bodies
of `self.tasks + self.families` at one deeper indent, then `endfamily`.
The family's trigger and in-limits are not emitted (the source has only a
`TODO` for them). -/
def Family.cdp_definition (f : FamilyT) (indent_order : Nat) : Except Unit String :=
  match f with
  | .mk n _ _ v l _ ts fs =>
    match tasksOut ts (indent_order + 1) with
    | .error e => .error e
    | .ok tsOut =>
      match famsOut fs (indent_order + 1) with
      | .error e => .error e
      | .ok fsOut =>
        .ok (tabs indent_order ++ "family " ++ n ++ "\n"
             ++ Family._start_cdp_definition l v indent_order
             ++ tsOut ++ fsOut
             ++ SMSNode._end_cdp_definition "family" indent_order)

/-- The task half of `Family._specific_cdp_definition`'s loop. -/
def tasksOut (ts : List TaskT) (indent_order : Nat) : Except Unit String :=
  match ts with
  | [] => .ok ""
  | t :: rest =>
    match Task.cdp_definition t indent_order with
    | .error e => .error e
    | .ok s =>
      match tasksOut rest indent_order with
      | .error e => .error e
      | .ok r => .ok (s ++ r)

/-- The family half of `Family._specific_cdp_definition`'s loop (also
`Suite._specific_cdp_definition`). -/
def famsOut (fs : List FamilyT) (indent_order : Nat) : Except Unit String :=
  match fs with
  | [] => .ok ""
  | f :: rest =>
    match Family.cdp_definition f indent_order with
    | .error e => .error e
    | .ok s =>
      match famsOut rest indent_order with
      | .error e => .error e
      | .ok r => .ok (s ++ r)

end

/-- `Suite.cdp_definition` (at indent 0): header, variable lines, all
top-level family bodies, `endsuite`. -/
def Suite.cdp_definition (s : SuiteT) : Except Unit String :=
  match famsOut s.families 1 with
  | .error e => .error e
  | .ok body =>
    .ok ("suite " ++ s.name ++ "\n"
         ++ SMSNode._start_cdp_definition s.vars 0
         ++ body
         ++ SMSNode._end_cdp_definition "suite" 0)

/-! ## `ExtraNode`, `Meter`, `Label` -/

/-- A candidate value for an `ExtraNode`'s `parent` attribute: the
`isinstance(parent, Task)` check in the setter distinguishes a Task from
everything else. -/
inductive PParent where
  | pTask (t : TaskT)
  | pFam (f : FamilyT)
  | pSuite (s : SuiteT)
  | pNone
  deriving Repr

/-- The `ExtraNode` state: `_name`, `_parent` (only ever a Task) and the
stored `_path`. -/
structure ExtraNode where
  enName : String := ""
  enParent : Option TaskT := none
  enPath : String := ""
  deriving Repr, DecidableEq

/-- Python `s.rpartition(':')[0]`: everything before the last colon, or `''`
when there is none. -/
def rpartitionBeforeColon (s : String) : String :=
  let parts := (splitCharList ':' s.toList).map String.mk
  if parts.length ≤ 1 then "" else String.intercalate ":" parts.dropLast

/-- The `ExtraNode.name` setter: replace the final `:`-component of the
stored path by the new name. -/
def ExtraNode.setName (e : ExtraNode) (the_name : String) : ExtraNode :=
  { e with enName := the_name
           enPath := rpartitionBeforeColon e.enPath ++ ":" ++ the_name }

/-- The `ExtraNode.parent` setter: only a `Task` is accepted; assigning
anything else leaves `_parent` and `_path` untouched. -/
def ExtraNode.setParent (e : ExtraNode) (parent : PParent) : ExtraNode :=
  match parent with
  | .pTask t => { e with enParent := some t, enPath := t.path ++ ":" ++ e.enName }
  | _ => e

/-- `ExtraNode.__init__`: name assignment (on the class-default empty path)
followed by parent assignment. -/
def ExtraNode.mkNew (name : String) (parent : PParent) : ExtraNode :=
  (ExtraNode.setName {} name).setParent parent

/-- A `Meter`: the `ExtraNode` part plus `_minimum`, `_maximum`, `_mark`
with their class defaults `0`, `100`, `100`. -/
structure Meter where
  node : ExtraNode
  minimum : Int := 0
  maximum : Int := 100
  mark : Int := 100
  deriving Repr, DecidableEq

/-- The `Meter.mark` setter: a value outside `[minimum, maximum]` is
silently ignored. -/
def Meter.set_mark (m : Meter) (value : Int) : Meter :=
  if m.minimum ≤ value ∧ value ≤ m.maximum then { m with mark := value } else m

/-- `Meter.__init__`: `ExtraNode` init, then `_minimum`/`_maximum` are
assigned directly while the initial mark goes through the guarded setter
(leaving the class default `100` when out of range or absent).  The source's
`int()` conversions of the parsed numeral strings are modelled by taking
`Int` arguments. -/
def Meter.mkNew (name : String) (the_min the_max the_mark : Option Int)
    (parent : PParent) : Meter :=
  let m0 : Meter := { node := ExtraNode.mkNew name parent }
  let m1 := match the_min with
            | some v => { m0 with minimum := v }
            | none => m0
  let m2 := match the_max with
            | some v => { m1 with maximum := v }
            | none => m1
  match the_mark with
  | some v => m2.set_mark v
  | none => m2

/-- A `Label`: the `ExtraNode` part plus its free text. -/
structure Label where
  node : ExtraNode
  text : String := ""
  deriving Repr, DecidableEq

/-- `Label.__init__`. -/
def Label.mkNew (name : String) (text : Option String) (parent : PParent) :
    Label :=
  { node := ExtraNode.mkNew name parent, text := text.getD "" }

/-! ## Class-level default collections (Python attribute semantics)

`Task.labels` (like `meters`, `in_limits`, `SMSNode.variables`,
`Family.families`, …) is declared as a mutable class attribute.  An instance
only gets its own list when some code assigns `self.labels = ...` (which
`_parse_cdp` does for parse-built tasks); `Task(name=...)` never does, so
attribute lookup on such an instance reads the single class-level list, and
`self.labels.append(...)` mutates that shared list.  The state of the class
attribute is threaded explicitly. -/

/-- A `Task` object as far as its `labels` attribute is concerned:
`instLabels = none` means no instance attribute (lookup falls through to the
class). -/
structure PyTaskObj where
  pyName : String
  instLabels : Option (List String)
  deriving Repr, DecidableEq

/-- The mutable class attribute `Task.labels`. -/
structure PyClassState where
  classLabels : List String := []
  deriving Repr, DecidableEq

/-- `Task(name=n)`: `__init__` runs without `_parse_cdp`, so no instance
`labels` attribute is created. -/
def Task.mkFromName (n : String) : PyTaskObj := ⟨n, none⟩

/-- A parse-built task: `_parse_cdp` assigns a fresh instance list. -/
def Task.mkFromParse (n : String) (labels : List String) : PyTaskObj :=
  ⟨n, some labels⟩

/-- Attribute lookup `self.labels`. -/
def PyTaskObj.getLabels (t : PyTaskObj) (st : PyClassState) : List String :=
  t.instLabels.getD st.classLabels

/-- `Task.add_label` (with the `ExtraNode` parent re-assignment elided):
append to whatever list `self.labels` resolves to. -/
def Task.add_label (st : PyClassState) (t : PyTaskObj) (label : String) :
    PyClassState × PyTaskObj :=
  if label ∈ t.getLabels st then (st, t)
  else
    match t.instLabels with
    | none => ({ classLabels := st.classLabels ++ [label] }, t)
    | some ls => (st, { t with instLabels := some (ls ++ [label]) })

/-! ## Example trees used in the theorems -/

/-- Parse record of `task t1` (no body). -/
def exRawT1 : RawTask := { name := "t1" }

/-- Parse record of `task t2` (no body). -/
def exRawT2 : RawTask := { name := "t2" }

/-- Parse record of `family f1` containing only `task t1`. -/
def exRawF1 : RawFam := .mk "f1" [] [] "" [exRawT1] []

/-- Parse record of a `family f2` containing `task t2` and carrying the
captured trigger text `e`. -/
def exRawF2 (e : String) : RawFam := .mk "f2" [] [] e [exRawT2] []

/-- The family built from `exRawF1` as a top-level child of the suite. -/
def exFam1 : FamilyT := buildFamily "/" exRawF1

/-- The suite `s` with families `f1` (task `t1`) and `f2` (task `t2`,
trigger text `e`). -/
def exSuite (e : String) : SuiteT := buildSuite "s" [] [exRawF1, exRawF2 e]

/-- The suite node of `exSuite e` as an object with its (empty) parent
chain. -/
def exSuiteNode (e : String) : CNode := ⟨.vSuite (exSuite e), []⟩

/-- The `f1` node of `exSuite e` with its parent chain. -/
def exFam1Node (e : String) : CNode :=
  ⟨.vFam (buildFamily "/" exRawF1), [.vSuite (exSuite e)]⟩

/-- The `f2` node of `exSuite e` with its parent chain. -/
def exFam2Node (e : String) : CNode :=
  ⟨.vFam (buildFamily "/" (exRawF2 e)), [.vSuite (exSuite e)]⟩

/-- The `exSuite` tree after the run has progressed: `f1`'s `status` has
been set to `"complete"`.  (`status` is a plain mutable attribute; only the
values matter for trigger evaluation.) -/
def exFam1Complete : FamilyT := .mk "f1" "/f1" "complete" [] [] "" [buildTask "/f1" exRawT1] []

/-- Suite containing `exFam1Complete` and `f2`. -/
def exSuiteComplete : SuiteT :=
  { name := "s", families := [exFam1Complete, buildFamily "/" (exRawF2 "f1 != complete")] }

/-- The `f2` node of `exSuiteComplete` with its parent chain. -/
def exFam2CompleteNode : CNode :=
  ⟨.vFam (buildFamily "/" (exRawF2 "f1 != complete")), [.vSuite exSuiteComplete]⟩

/-- The `f1` node of `exSuiteComplete` with its parent chain. -/
def exFam1CompleteNode : CNode :=
  ⟨.vFam exFam1Complete, [.vSuite exSuiteComplete]⟩

/-- A family declaring `limit lim 5`, as only child of a suite. -/
def exLimFam : FamilyT := .mk "fl" "/fl" "unknown" [] [("lim", "5")] "" [] []

/-- Suite owning `exLimFam`. -/
def exLimSuite : SuiteT := { name := "s", families := [exLimFam] }

/-- The `fl` node of `exLimSuite` with its parent chain. -/
def exLimFamNode : CNode := ⟨.vFam exLimFam, [.vSuite exLimSuite]⟩

/-- The task `t1` of `exSuite ""` with its full parent chain. -/
def exTaskNode : CNode :=
  ⟨.vTask (buildTask "/f1" exRawT1), [.vFam exFam1, .vSuite (exSuite "")]⟩

/-- A meter `m` constructed with minimum 0, maximum 10 and the in-range
initial mark 5. -/
def exMeter : Meter := Meter.mkNew "m" (some 0) (some 10) (some 5) .pNone

/-! ## Helper lemmas -/

/-- `walkTokens` cannot error on a token list without `'..'`. -/
theorem walkTokens_total (toks : List String) (h : ".." ∉ toks) :
    ∀ base : Option CNode, ∃ r, walkTokens base toks = .ok r := by
  induction toks with
  | nil => exact fun base => ⟨(base, []), rfl⟩
  | cons t ts ih =>
    intro base
    have ht : ¬t = ".." := fun he => h (he ▸ List.mem_cons_self t ts)
    have hts : ".." ∉ ts := fun hm => h (List.mem_cons_of_mem t hm)
    obtain ⟨⟨b, acc⟩, hr⟩ := ih hts base
    refine ⟨(b, t :: acc), ?_⟩
    simp only [walkTokens, if_neg ht, hr]

/-- `get_node_rel` cannot error when the path splits into `'..'`-free
segments. -/
theorem get_node_rel_total (c : CNode) (cs : List Char)
    (h : ".." ∉ (splitCharList '/' cs).map String.mk) :
    ∃ r, get_node_rel c cs = .ok r := by
  obtain ⟨⟨b, acc⟩, hw⟩ :=
    walkTokens_total ((splitCharList '/' cs).map String.mk) h
      (match parentOf c with
       | some p => some p
       | none => get_suite c)
  have run : ∀ ropt,
      (match walkTokens
          (match parentOf c with
           | some p => some p
           | none => get_suite c)
          ((splitCharList '/' cs).map String.mk) with
        | .error e => Except.error e
        | .ok (base, rel_list) =>
          Except.ok (match base with
                     | none => none
                     | some bb => node_from_path bb (String.intercalate "/" rel_list)))
        = Except.ok ropt → get_node_rel c cs = Except.ok ropt :=
    fun _ hr => hr
  cases b with
  | none => exact ⟨none, run none (by rw [hw])⟩
  | some bb =>
    exact ⟨node_from_path bb (String.intercalate "/" acc),
           run (node_from_path bb (String.intercalate "/" acc)) (by rw [hw])⟩

/-- `Meter.set_mark` never changes the `ExtraNode` part. -/
theorem set_mark_node (m : Meter) (v : Int) : (m.set_mark v).node = m.node := by
  unfold Meter.set_mark
  split <;> rfl

/-! ## Claim theorems -/

/-- C1: claimed — renaming a node updates its own path **and the path of
every descendant**.  The code's `name` setter only reassigns `self._path`:
in the built tree `/f1` with child task `/f1/t1`, renaming `f1` to `f2`
yields family path `/f2` while the child task's stored path stays `/f1/t1`,
not `/f2/t1`. -/
theorem C1_rename_does_not_cascade :
    exFam1.path = "/f1" ∧
    exFam1.tasks.map TaskT.path = ["/f1/t1"] ∧
    (exFam1.setName "f2").path = "/f2" ∧
    (exFam1.setName "f2").tasks.map TaskT.path = ["/f1/t1"] ∧
    ("/f1/t1" : String) ≠ "/f2/t1" :=
  ⟨rfl, rfl, rfl, rfl, by decide⟩

/-- C2: claimed — `build(serialize(build(T)))` is structurally equal to
`build(T)`, including trigger semantics.  The serializer never emits a
family's trigger (nor its in-limits): the regenerated text of the suite
`s { f1 { t1 }, f2 { t2, trigger e } }` is one fixed string, independent of
the trigger text `e` that the built tree still carries, so re-parsing the
regenerated text cannot reproduce the trigger. -/
theorem C2_serializer_ignores_family_trigger :
    ∀ e : String,
      Suite.cdp_definition (exSuite e) =
        .ok ("suite s\n\tfamily f1\n\t\ttask t1\n\t\tendtask\n\tendfamily\n"
             ++ "\tfamily f2\n\t\ttask t2\n\t\tendtask\n\tendfamily\nendsuite\n") ∧
      (exSuite e).families.map FamilyT.trigger_exp = ["", e] :=
  fun _ => ⟨rfl, rfl⟩

/-- C5 counterexample: claimed — an in-limit whose target node does not
resolve records a null limit and construction continues.  In the code,
`_parse_in_limits` dereferences `node.limits` on the `None` resolution
result, raising `AttributeError`: construction fails. -/
theorem C5_counterexample :
    Family._parse_in_limits exLimFamNode [("zz", "lim")] = .error () := rfl

/-- C5 amended: an in-limit whose *limit name* is absent on the resolved
Family target records a null limit `(node, None)` and construction
continues; but an in-limit whose *target node* does not resolve (or
resolves to a node without a `limits` attribute) raises at construction
time. -/
theorem C5_amended :
    (∀ (c : CNode) (path lname : String) (n : CNode) (f : FamilyT),
        get_node c path = .ok (some n) → n.node = .vFam f →
        Family._parse_in_limits c [(path, lname)] =
          .ok [(some n, dictGet f.limits lname)]) ∧
    (∀ (c : CNode) (path lname : String),
        get_node c path = .ok none →
        Family._parse_in_limits c [(path, lname)] = .error ()) := by
  constructor
  · intro c path lname n f h1 h2
    simp only [Family._parse_in_limits, inLimitsLoop, h1, h2, List.nil_append]
  · intro c path lname h1
    simp only [Family._parse_in_limits, inLimitsLoop, h1]

/-- C5 witness: both halves of `C5_amended` applied to the concrete suite
`s { fl { limit lim 5 } }`: the absent limit name `nothere` on the resolved
target `/fl` yields a null limit, the unresolved target `zz` yields the
error. -/
theorem C5_amended_witness :
    get_node exLimFamNode "/fl" = .ok (some exLimFamNode) ∧
    Family._parse_in_limits exLimFamNode [("/fl", "nothere")] =
      .ok [(some exLimFamNode, none)] ∧
    get_node exLimFamNode "zz" = .ok none ∧
    Family._parse_in_limits exLimFamNode [("zz", "lim")] = .error () :=
  ⟨rfl,
   C5_amended.1 exLimFamNode "/fl" "nothere" exLimFamNode exLimFam rfl rfl,
   rfl,
   C5_amended.2 exLimFamNode "zz" "lim" rfl⟩

/-- C6: claimed — every node instance owns fresh collections; mutating one
instance never changes another.  `Task.labels` is a class-level list and
`Task(name=...)` never assigns an instance attribute, so after
`Task(name='a').add_label('x')` a distinct `Task(name='b')` also observes
`['x']`. -/
theorem C6_class_level_collections_shared :
    (Task.mkFromName "b").getLabels {} = [] ∧
    (Task.mkFromName "b").getLabels (Task.add_label {} (Task.mkFromName "a") "x").1 = ["x"] :=
  ⟨rfl, rfl⟩

/-- C7 counterexample: claimed — a Meter constructed with any initial
values satisfies `minimum ≤ mark ≤ maximum`.  `Meter('m', 0, 10, 50)` runs
the guarded mark setter with out-of-range `50`, which keeps the class
default `100`: the constructed meter has `mark = 100 > maximum = 10`. -/
theorem C7_counterexample :
    (Meter.mkNew "m" (some 0) (some 10) (some 50) .pNone).minimum = 0 ∧
    (Meter.mkNew "m" (some 0) (some 10) (some 50) .pNone).maximum = 10 ∧
    (Meter.mkNew "m" (some 0) (some 10) (some 50) .pNone).mark = 100 ∧
    ¬((Meter.mkNew "m" (some 0) (some 10) (some 50) .pNone).mark ≤
      (Meter.mkNew "m" (some 0) (some 10) (some 50) .pNone).maximum) := by
  refine ⟨rfl, rfl, rfl, ?_⟩
  decide

/-- C7 amended: setting the mark outside `[minimum, maximum]` leaves the
meter unchanged and setting it within range stores it; a meter constructed
with an **in-range** initial mark satisfies the bound, while an out-of-range
initial mark silently keeps the class default `100` (see the
counterexample). -/
theorem C7_amended :
    (∀ (m : Meter) (v : Int),
        ¬(m.minimum ≤ v ∧ v ≤ m.maximum) → m.set_mark v = m) ∧
    (∀ (m : Meter) (v : Int),
        m.minimum ≤ v → v ≤ m.maximum → (m.set_mark v).mark = v) ∧
    (∀ (name : String) (mn mx mk : Int) (p : PParent),
        mn ≤ mk → mk ≤ mx →
        (Meter.mkNew name (some mn) (some mx) (some mk) p).minimum = mn ∧
        (Meter.mkNew name (some mn) (some mx) (some mk) p).maximum = mx ∧
        (Meter.mkNew name (some mn) (some mx) (some mk) p).mark = mk) := by
  refine ⟨?_, ?_, ?_⟩
  · intro m v h
    unfold Meter.set_mark
    rw [if_neg h]
  · intro m v h1 h2
    unfold Meter.set_mark
    rw [if_pos ⟨h1, h2⟩]
  · intro name mn mx mk p h1 h2
    simp only [Meter.mkNew, Meter.set_mark]
    rw [if_pos ⟨h1, h2⟩]
    exact ⟨rfl, rfl, rfl⟩

/-- C7 witness: `C7_amended` applied to the concrete meter
`Meter('m', 0, 10, 5)`: the out-of-range update `50` is ignored, the
in-range update `7` is stored, and the in-range construction satisfies the
bound. -/
theorem C7_amended_witness :
    (¬((exMeter.minimum ≤ 50 ∧ (50:Int) ≤ exMeter.maximum)) ∧
      exMeter.set_mark 50 = exMeter) ∧
    (exMeter.minimum ≤ 7 ∧ (7:Int) ≤ exMeter.maximum ∧
      (exMeter.set_mark 7).mark = 7) ∧
    ((0:Int) ≤ 5 ∧ (5:Int) ≤ 10 ∧
      (Meter.mkNew "m" (some 0) (some 10) (some 5) .pNone).minimum = 0 ∧
      (Meter.mkNew "m" (some 0) (some 10) (some 5) .pNone).maximum = 10 ∧
      (Meter.mkNew "m" (some 0) (some 10) (some 5) .pNone).mark = 5) :=
  ⟨⟨by decide, C7_amended.1 exMeter 50 (by decide)⟩,
   ⟨by decide, by decide, C7_amended.2.1 exMeter 7 (by decide) (by decide)⟩,
   ⟨by decide, by decide,
    (C7_amended.2.2 "m" 0 10 5 .pNone (by decide) (by decide)).1,
    (C7_amended.2.2 "m" 0 10 5 .pNone (by decide) (by decide)).2.1,
    (C7_amended.2.2 "m" 0 10 5 .pNone (by decide) (by decide)).2.2⟩⟩

/-- C3 counterexample: claimed — an unresolved trigger path operand is a
hard failure recording a LinkError, never silently kept.  In the built
suite `s { f1 { t1 } }`, parsing the trigger `zz == complete` on `f1`
(where `zz` resolves to nothing) succeeds and stores the trigger with a
`None` operand: no failure of any kind is raised or recorded. -/
theorem C3_counterexample :
    NodeWithTriggers._parse_trigger (exFam1Node "") "zz == complete" =
      .ok ([.placeholder, .eqOp, .litStr "complete"], [none]) := rfl

/-- C3 amended: an unresolved path operand does **not** fail at link time
and no LinkError exists: `get_node`'s `None` result is appended to the
trigger's operand list and the trigger is kept; the miss only surfaces when
the trigger is evaluated, where reading `status` of the `None` operand
raises. -/
theorem C3_amended :
    ∀ (c : CNode) (t p : String),
      get_node c p = .ok none →
      splitWhitespace t = [p, "==", "complete"] →
      triggerTokGroups p = ("", p, "") →
      ¬p = "" → ¬p = "complete" → ¬p = "unknown" → ¬p = "AND" → ¬p = "OR" →
      ¬p = "==" →
      strContains p '(' = false → strContains p ')' = false →
      NodeWithTriggers._parse_trigger c t =
        .ok ([.placeholder, .eqOp, .litStr "complete"], [none]) ∧
      evalute_trigger ([TTok.placeholder, TTok.eqOp, TTok.litStr "complete"], [none]) =
        .error () := by
  intro c t p h1 hsplit hgroups hne hnc hnu hna hno hneq hlp hrp
  refine ⟨?_, rfl⟩
  unfold NodeWithTriggers._parse_trigger
  rw [hsplit]
  have hg2 : trigGroupStep c ([], []) p = .ok ([TTok.placeholder], [none]) := by
    unfold trigGroupStep
    rw [if_neg hne, hlp, hrp]
    rw [if_neg (fun hor : p = "complete" ∨ p = "unknown" => hor.elim hnc hnu)]
    rw [if_neg (fun hor : p = "AND" ∨ p = "OR" => hor.elim hna hno)]
    rw [if_neg hneq, h1]
    simp
  have e1 : trigTokLoop c [p, "==", "complete"] ([], []) =
      match trigGroupStep c ([], []) (triggerTokGroups p).1 with
      | .error e => Except.error e
      | .ok a1 =>
        match trigGroupStep c a1 (triggerTokGroups p).2.1 with
        | .error e => Except.error e
        | .ok a2 =>
          match trigGroupStep c a2 (triggerTokGroups p).2.2 with
          | .error e => Except.error e
          | .ok a3 => trigTokLoop c ["==", "complete"] a3 := rfl
  rw [e1, hgroups]
  show (match trigGroupStep c ([], []) p with
        | .error e => Except.error e
        | .ok a2 =>
          match trigGroupStep c a2 "" with
          | .error e => Except.error e
          | .ok a3 => trigTokLoop c ["==", "complete"] a3) = _
  rw [hg2]
  rfl

/-- C3 witness: `C3_amended` applied to the built suite `s { f1 { t1 } }`
with the unresolvable operand `zz`. -/
theorem C3_amended_witness :
    get_node (exFam1Node "") "zz" = .ok none ∧
    splitWhitespace "zz == complete" = ["zz", "==", "complete"] ∧
    triggerTokGroups "zz" = ("", "zz", "") ∧
    NodeWithTriggers._parse_trigger (exFam1Node "") "zz == complete" =
      .ok ([.placeholder, .eqOp, .litStr "complete"], [none]) ∧
    evalute_trigger ([TTok.placeholder, TTok.eqOp, TTok.litStr "complete"], [none]) =
      .error () := by
  have h := C3_amended (exFam1Node "") "zz == complete" "zz" rfl rfl rfl
    (by decide) (by decide) (by decide) (by decide) (by decide) (by decide)
    (by decide) (by decide)
  exact ⟨rfl, rfl, rfl, h.1, h.2⟩

/-- C4 counterexample: claimed — a comparison with operator `!=` evaluates
true iff the statuses differ.  The trigger parser drops the `!=` token
entirely (its regex groups are all empty): on the tree where `f1.status`
is already `"complete"`, the trigger `f1 != complete` parses to two adjacent
string literals, and evaluation returns the concatenated *string*
`"completecomplete"` — a truthy value although the claim requires `False`
here (statuses are equal). -/
theorem C4_counterexample :
    NodeWithTriggers._parse_trigger exFam2CompleteNode "f1 != complete" =
      .ok ([.placeholder, .litStr "complete"], [some exFam1CompleteNode]) ∧
    evalute_trigger ([TTok.placeholder, TTok.litStr "complete"], [some exFam1CompleteNode]) =
      .ok (.vStr "completecomplete") ∧
    PyVal.truthy (.vStr "completecomplete") = true :=
  ⟨rfl, rfl, rfl⟩

/-- C4 amended: a node with no trigger clause evaluates `True`; `==` is
true iff the referenced node's status equals the literal; `AND`/`OR`
combine with standard boolean semantics (evaluation is a pure function of
the tree).  However `!=` is **not** supported: the parser's regex groups
for the token `!=` are all empty, so it is dropped from the expression (see
the counterexample). -/
theorem C4_amended :
    evalute_trigger ([], []) = .ok (.vBool true) ∧
    (∀ c : CNode,
        evalute_trigger ([.placeholder, .eqOp, .litStr "complete"], [some c]) =
          .ok (.vBool (decide (c.node.status = "complete")))) ∧
    (∀ c1 c2 : CNode,
        evalute_trigger ([.placeholder, .eqOp, .litStr "complete", .boolOp "and",
                          .placeholder, .eqOp, .litStr "complete"],
                         [some c1, some c2]) =
          .ok (.vBool (decide (c1.node.status = "complete") &&
                       decide (c2.node.status = "complete")))) ∧
    (∀ c1 c2 : CNode,
        evalute_trigger ([.placeholder, .eqOp, .litStr "complete", .boolOp "or",
                          .placeholder, .eqOp, .litStr "complete"],
                         [some c1, some c2]) =
          .ok (.vBool (decide (c1.node.status = "complete") ||
                       decide (c2.node.status = "complete")))) ∧
    triggerTokGroups "!=" = ("", "", "") ∧
    (∀ (c : CNode) (acc : List TTok × List (Option CNode)),
        trigGroupStep c acc "" = .ok acc) := by
  refine ⟨rfl, ?_, ?_, ?_, rfl, fun c acc => rfl⟩
  · intro c
    show Except.ok (PyVal.vBool (decide (c.node.status = "complete") && true)) = _
    rw [Bool.and_true]
  · intro c1 c2
    show Except.ok (pyAnd (PyVal.vBool (decide (c1.node.status = "complete") && true))
                          (PyVal.vBool (decide (c2.node.status = "complete") && true))) = _
    by_cases h1 : c1.node.status = "complete" <;>
      by_cases h2 : c2.node.status = "complete" <;>
      simp [pyAnd, PyVal.truthy, h1, h2]
  · intro c1 c2
    show Except.ok (pyOr (PyVal.vBool (decide (c1.node.status = "complete") && true))
                         (PyVal.vBool (decide (c2.node.status = "complete") && true))) = _
    by_cases h1 : c1.node.status = "complete" <;>
      by_cases h2 : c2.node.status = "complete" <;>
      simp [pyOr, PyVal.truthy, h1, h2]

/-- C8 counterexample: claimed — resolution is total and never a hard
failure, *including* paths with more `..` segments than there are
ancestors.  From `f1` (one ancestor: the suite), resolving `../..` first
moves the base to the suite's `None` parent and then dereferences
`None.parent`: an `AttributeError`, not an empty result. -/
theorem C8_counterexample :
    get_node (exFam1Node "") "../.." = .error () := rfl

/-- C8 amended: resolution returns an explicit empty result (`None`) for
unmatched segments and never fails on paths without `..` segments (both
relative and absolute); but a `..` segment applied after the resolution
base has already moved above the Suite is a hard `AttributeError`, not an
empty result (see the counterexample). -/
theorem C8_amended :
    (∀ (c : CNode) (path : String),
        path.toList.head? ≠ some '/' →
        ".." ∉ splitSlash path →
        ∃ r, get_node c path = .ok r) ∧
    (∀ (c s' : CNode) (path : String) (rest : List Char),
        get_suite c = some s' →
        path.toList = '/' :: rest →
        rest.head? ≠ some '/' →
        ".." ∉ (splitCharList '/' rest).map String.mk →
        ∃ r, get_node c path = .ok r) ∧
    get_node (exSuiteNode "") "nope" = .ok none ∧
    get_node (exFam1Node "") ".." = .ok none := by
  refine ⟨?_, ?_, rfl, rfl⟩
  · intro c path hhead hdd
    have hdd' : ".." ∉ (splitCharList '/' path.toList).map String.mk := hdd
    cases hcs : path.toList with
    | nil =>
      have hrun : get_node c path = get_node_rel c [] := by
        unfold get_node
        rw [hcs]
        rfl
      rw [hrun]
      exact get_node_rel_total c [] (by rw [hcs] at hdd'; exact hdd')
    | cons ch rest =>
      have hch : ¬ch = '/' := by
        rw [hcs] at hhead
        simpa using hhead
      have hrun : get_node c path = get_node_rel c (ch :: rest) := by
        unfold get_node
        rw [hcs]
        simp only [get_node_go, if_neg hch]
      rw [hrun]
      exact get_node_rel_total c (ch :: rest) (by rw [hcs] at hdd'; exact hdd')
  · intro c s' path rest hs hcs hhead hdd
    have hrun : get_node c path = get_node_go rest s' := by
      unfold get_node
      rw [hcs]
      show (match get_suite c with
            | none => Except.error ()
            | some s => get_node_go rest s) = _
      rw [hs]
    rw [hrun]
    cases hr : rest with
    | nil => exact get_node_rel_total s' [] (by decide)
    | cons ch2 r2 =>
      have hch2 : ¬ch2 = '/' := by
        rw [hr] at hhead
        simpa using hhead
      have hrun2 : get_node_go (ch2 :: r2) s' = get_node_rel s' (ch2 :: r2) := by
        simp only [get_node_go, if_neg hch2]
      rw [hrun2]
      exact get_node_rel_total s' (ch2 :: r2) (by rw [hr] at hdd; exact hdd)

/-- C8 witness: `C8_amended` applied concretely — an unmatched relative
path and an absolute path resolve without error from `f1` of the built
suite `s { f1 { t1 } }`. -/
theorem C8_amended_witness :
    ("zz/deep".toList.head? ≠ some '/' ∧ ".." ∉ splitSlash "zz/deep" ∧
      ∃ r, get_node (exFam1Node "") "zz/deep" = .ok r) ∧
    (get_suite (exFam1Node "") = some (exSuiteNode "") ∧
      "/f1/t1".toList = '/' :: "f1/t1".toList ∧
      "f1/t1".toList.head? ≠ some '/' ∧
      ".." ∉ (splitCharList '/' "f1/t1".toList).map String.mk ∧
      ∃ r, get_node (exFam1Node "") "/f1/t1" = .ok r) := by
  constructor
  · exact ⟨by decide, by decide,
      C8_amended.1 (exFam1Node "") "zz/deep" (by decide) (by decide)⟩
  · exact ⟨rfl, rfl, by decide, by decide,
      C8_amended.2.1 (exFam1Node "") (exSuiteNode "") "/f1/t1" "f1/t1".toList
        rfl rfl (by decide) (by decide)⟩

/-- C9: confirmed — `resolve("/")` from any node of a built tree yields the
Suite (the node's `get_suite()` with empty remaining path), and from a Task
two levels below the Suite (Suite / Family / Family / Task) the relative
path `..` yields the grandparent Family, because relative resolution is
anchored at the node's parent. -/
theorem C9_root_and_grandparent :
    (∀ (c : CNode) (st : SuiteT),
        get_suite c = some ⟨.vSuite st, []⟩ →
        get_node c "/" = .ok (some ⟨.vSuite st, []⟩)) ∧
    (∀ (t : TaskT) (f2 f1 : FamilyT) (st : SuiteT),
        get_node ⟨.vTask t, [.vFam f2, .vFam f1, .vSuite st]⟩ ".." =
          .ok (some ⟨.vFam f1, [.vSuite st]⟩)) := by
  constructor
  · intro c st h
    show (match get_suite c with
          | none => Except.error ()
          | some s => get_node_go [] s) = _
    rw [h]
    rfl
  · intro t f2 f1 st
    cases f1
    rfl

/-- C9 witness: `C9_root_and_grandparent` applied to the task `t1` of the
built suite `s { f1 { t1 } }`. -/
theorem C9_witness :
    get_suite exTaskNode = some (exSuiteNode "") ∧
    get_node exTaskNode "/" = .ok (some (exSuiteNode "")) :=
  ⟨rfl, C9_root_and_grandparent.1 exTaskNode (exSuite "") rfl⟩

/-- C10: confirmed — an `ExtraNode` (Label/Meter) assigned a Task parent
stores path `taskpath:name`, and assigning any non-Task parent (Family,
Suite, None) leaves both the parent and the path unchanged. -/
theorem C10_extranode_path_discipline :
    (∀ (name : String) (t : TaskT),
        (ExtraNode.mkNew name (.pTask t)).enPath = t.path ++ ":" ++ name ∧
        (ExtraNode.mkNew name (.pTask t)).enParent = some t) ∧
    (∀ (name text : String) (t : TaskT),
        (Label.mkNew name (some text) (.pTask t)).node.enPath =
          t.path ++ ":" ++ name) ∧
    (∀ (name : String) (mn mx mk : Int) (t : TaskT),
        (Meter.mkNew name (some mn) (some mx) (some mk) (.pTask t)).node.enPath =
          t.path ++ ":" ++ name) ∧
    (∀ (e : ExtraNode) (f : FamilyT), e.setParent (.pFam f) = e) ∧
    (∀ (e : ExtraNode) (s : SuiteT), e.setParent (.pSuite s) = e) ∧
    (∀ e : ExtraNode, e.setParent .pNone = e) := by
  refine ⟨fun name t => ⟨rfl, rfl⟩, fun name text t => rfl, ?_,
          fun e f => rfl, fun e s => rfl, fun e => rfl⟩
  intro name mn mx mk t
  have hn : (Meter.mkNew name (some mn) (some mx) (some mk) (.pTask t)).node =
      ExtraNode.mkNew name (.pTask t) := by
    simp only [Meter.mkNew]
    rw [set_mark_node]
  rw [hn]
  rfl

end SMS
